import Mathlib

/-!
# brdpoc.c: TUN allocation and the echo loop

A shallow embedding of `src/brdpoc.c`.  The program talks to the operating system
only through `open`, `ioctl`, `close`, `read`, `write` and `printf`; every such call
is recorded, with its arguments and its result, in a trace of `Event`s, and the
answers of the operating system are taken from an arbitrary `Kernel`.

C strings and buffers are lists of bytes.  A library call whose behaviour the C
standard leaves undefined because it reads past the end of its source array yields
`none`; bytes a call stores past the end of its destination are kept in an explicit
`overflow` list, so that the size of every copy can be stated.
-/

namespace Brdpoc

/-- One `char`. -/
abbrev Byte := Nat

/-- Constant `IFNAMSIZ` of `<linux/if.h>`. -/
def IFNAMSIZ : Nat := 16

/-- Constant `IFF_TUN` of `<linux/if_tun.h>`. -/
def IFF_TUN : Nat := 0x0001

/-- Constant `IFF_NO_PI` of `<linux/if_tun.h>`. -/
def IFF_NO_PI : Nat := 0x1000

/-- Constant `O_RDWR` of `<fcntl.h>`. -/
def O_RDWR : Nat := 2

/-- Request number `TUNSETIFF`, that is `_IOW(0x54, 202, int)`. -/
def TUNSETIFF : Nat := 0x400454ca

/-- Size of `struct ifreq` on LP64 Linux: the name and a 24-byte union. -/
def IFREQ_SIZE : Nat := 40

/-- The record `struct ifreq` as `tun_alloc` uses it: the name field, the flags member
of the union (a `short`), and the bytes of the union that follow the flags. -/
structure Ifreq where
  ifr_name : List Byte
  ifr_flags : Nat
  ifr_rest : List Byte
deriving DecidableEq, Repr

/-- An argument of `printf`. -/
inductive PrintfArg where
  | str (s : List Byte)
  | int (v : Int)
deriving DecidableEq, Repr

/-- One call made to the operating system or to `printf`, with its result. -/
inductive Event where
  | open (path : String) (flags : Nat) (ret : Int)
  | ioctl (fd : Int) (request : Nat) (arg : Ifreq) (ret : Int)
  | close (fd : Int)
  | read (fd : Int) (count : Nat) (ret : Int)
  | write (fd : Int) (payload : List Byte) (count : Nat) (ret : Int)
  | printf (fmt : String) (args : List PrintfArg)
deriving DecidableEq, Repr

/-- What a `read` call returns: its result and the bytes the kernel stored at the
start of the buffer. -/
structure ReadAns where
  ret : Int
  data : List Byte
deriving DecidableEq, Repr

/-- The answers of the operating system, and the indeterminate initial content of the
two arrays `main` declares without initialising them. -/
structure Kernel where
  sys_open : Int
  sys_ioctl : Int → Ifreq → Int × Ifreq
  sys_read : Nat → ReadAns
  sys_write : Nat → Int
  iname_init : Nat → Byte
  buff_init : Nat → Byte

/-- The bytes `strcpy` transfers from `src`: everything up to and including the first
NUL.  `none` when `src` holds no NUL. -/
def copy_string : List Byte → Option (List Byte)
  | [] => none
  | c :: cs => if c = 0 then some [0] else (copy_string cs).map (fun w => c :: w)

/-- The bytes `strncpy(_, src, n)` stores: the characters of `src` before its first
NUL, at most `n` of them, then NULs up to `n` bytes in all.  `none` when `src` ends
before `n` bytes and before a NUL. -/
def copy_bounded : Nat → List Byte → Option (List Byte)
  | 0, _ => some []
  | _ + 1, [] => none
  | n + 1, c :: cs =>
    if c = 0 then some (List.replicate (n + 1) 0)
    else (copy_bounded n cs).map (fun w => c :: w)

/-- Storing the bytes `w` at the start of the array `dst`: the array afterwards, and
the bytes that landed past its end. -/
def store (dst w : List Byte) : List Byte × List Byte :=
  (w.take dst.length ++ dst.drop w.length, w.drop dst.length)

/-- Library function `strcpy(dst, src)`. -/
def strcpy (dst src : List Byte) : Option (List Byte × List Byte) :=
  (copy_string src).map (store dst)

/-- Library function `strncpy(dst, src, n)`. -/
def strncpy (dst src : List Byte) (n : Nat) : Option (List Byte × List Byte) :=
  (copy_bounded n src).map (store dst)

/-- The string a `%s` conversion prints: the bytes before the first NUL. -/
def c_str (s : List Byte) : List Byte :=
  s.takeWhile (fun c => c ≠ 0)

/-- Conversion of an `ssize_t` to `size_t` (64 bits). -/
def to_size_t (s : Int) : Nat :=
  (s % 2 ^ 64).toNat

/-- The record after `memset(&ifr, 0, sizeof(ifr))`. -/
def ifreq_zero : Ifreq :=
  { ifr_name := List.replicate IFNAMSIZ 0
    ifr_flags := 0
    ifr_rest := List.replicate (IFREQ_SIZE - IFNAMSIZ - 2) 0 }

/-- Outcome of `tun_alloc`: the value returned, the caller's buffer on return, the
bytes stored past the end of that buffer, and the calls made. -/
structure AllocResult where
  ret : Int
  dev : List Byte
  overflow : List Byte
  trace : List Event
deriving DecidableEq, Repr

/-- Lines 22 to 32 of `tun_alloc`: the record handed to the control request. -/
def tun_request (dev : List Byte) : Option Ifreq :=
  let ifr := ifreq_zero
  let ifr := { ifr with ifr_flags := IFF_TUN ||| IFF_NO_PI }
  match dev with
  | [] => none
  | c :: _ =>
    if c ≠ 0 then
      (strncpy ifr.ifr_name dev IFNAMSIZ).map (fun p => { ifr with ifr_name := p.1 })
    else some ifr

/-- Function `tun_alloc(char *dev)`; `dev` is the content of the caller's buffer. -/
def tun_alloc (k : Kernel) (dev : List Byte) : Option AllocResult :=
  let fd := k.sys_open
  let ev_open := Event.open "/dev/net/tun" O_RDWR fd
  if fd < 0 then
    some { ret := -1, dev := dev, overflow := [],
           trace := [ev_open, Event.printf "open failed.\n" []] }
  else
    match tun_request dev with
    | none => none
    | some ifr =>
      let ans := k.sys_ioctl fd ifr
      let err := ans.1
      let ev_ioctl := Event.ioctl fd TUNSETIFF ifr err
      if err < 0 then
        some { ret := err, dev := dev, overflow := [],
               trace := [ev_open, ev_ioctl, Event.close fd, Event.printf "no dice.\n" []] }
      else
        match strcpy dev ans.2.ifr_name with
        | none => none
        | some p =>
          some { ret := fd, dev := p.1, overflow := p.2,
                 trace := [ev_open, ev_ioctl, Event.printf "got a dev.\n" []] }

/-- The variables of `main` and the calls made so far; `iter` counts the loop
iterations completed, which is also the number of `read` and of `write` calls. -/
structure MainState where
  fd : Int
  iname : List Byte
  buff : List Byte
  iter : Nat
  trace : List Event
deriving DecidableEq, Repr

/-- The string literal `"tun%d"`, terminating NUL included. -/
def tun_template : List Byte := [116, 117, 110, 37, 100, 0]

/-- Lines 47 to 52 of `main`: everything before the loop.  `none` when a copy is
undefined or runs past the end of `iname`. -/
def main_init (k : Kernel) : Option MainState :=
  let iname0 := (List.range 1024).map k.iname_init
  match strcpy iname0 tun_template with
  | none => none
  | some p =>
    if p.2 ≠ [] then none
    else
      match tun_alloc k p.1 with
      | none => none
      | some r =>
        if r.overflow ≠ [] then none
        else
          some { fd := r.ret, iname := r.dev,
                 buff := (List.range 8192).map k.buff_init,
                 iter := 0,
                 trace := r.trace ++
                   [Event.printf "%s %d\n" [PrintfArg.str (c_str r.dev), PrintfArg.int r.ret]] }

/-- Lines 54 to 56 of `main`: one pass through the body of the loop. -/
def loop_body (k : Kernel) (st : MainState) : MainState :=
  let ans := k.sys_read st.iter
  let buff := (store st.buff (ans.data.take 8192)).1
  let s := ans.ret
  let count := to_size_t s
  { st with
    buff := buff
    iter := st.iter + 1
    trace := st.trace ++
      [Event.read st.fd 8192 s,
       Event.printf "read %d\n" [PrintfArg.int s],
       Event.write st.fd (buff.take count) count (k.sys_write st.iter)] }

/-- The statement `while (cond) body`, run for at most `fuel` passes: the state
reached, and whether control has left the loop. -/
def c_while {σ : Type} (cond : σ → Bool) (body : σ → σ) : Nat → σ → σ × Bool
  | 0, st => (st, false)
  | fuel + 1, st => if cond st then c_while cond body fuel (body st) else (st, true)

/-- Function `main`, its loop run for at most `fuel` passes: the state reached and,
once `main` has returned, the value returned. -/
def main (k : Kernel) (fuel : Nat) : Option (MainState × Option Int) :=
  (main_init k).map (fun s0 =>
    let r := c_while (fun _ => decide ((1 : Int) ≠ 0)) (loop_body k) fuel s0
    (r.1, if r.2 then some 0 else none))

/-- The record the control request is specified to receive: flags exactly
`IFF_TUN | IFF_NO_PI`, the name field all zero for an empty template and otherwise the
bytes of the template before its first NUL, cut to 16 bytes and zero-padded to 16,
every other byte zero (22 bytes follow the flags on LP64 Linux). -/
def request_spec (dev : List Byte) : Ifreq :=
  { ifr_name :=
      if c_str dev = [] then List.replicate 16 0
      else (c_str dev).take 16 ++ List.replicate (16 - ((c_str dev).take 16).length) 0
    ifr_flags := 0x1001
    ifr_rest := List.replicate 22 0 }

/-- A read or write call of a trace: which of the two, the descriptor, the byte count
requested and the result. -/
structure IoCall where
  is_write : Bool
  fd : Int
  count : Nat
  ret : Int
deriving DecidableEq, Repr

/-- The read and write calls of a trace, in order. -/
def io_calls : List Event → List IoCall
  | [] => []
  | Event.read fd count ret :: es => { is_write := false, fd := fd, count := count, ret := ret } :: io_calls es
  | Event.write fd _ count ret :: es => { is_write := true, fd := fd, count := count, ret := ret } :: io_calls es
  | _ :: es => io_calls es

/-- The name field holding `tun0`. -/
def name_tun0 : List Byte := [116, 117, 110, 48, 0, 0, 0, 0, 0, 0, 0, 0, 0, 0, 0, 0]

/-- A kernel that opens descriptor 3, resolves every request to `tun0`, delivers the
3-byte packet `45 00 00` on every read and accepts every write in full. -/
def kernel_live : Kernel :=
  { sys_open := 3
    sys_ioctl := fun _ ifr => (0, { ifr with ifr_name := name_tun0 })
    sys_read := fun _ => { ret := 3, data := [69, 0, 0] }
    sys_write := fun _ => 3
    iname_init := fun _ => 0
    buff_init := fun _ => 0 }

/-- A kernel without the control device: `open` fails, and every call on the invalid
descriptor fails. -/
def kernel_no_device : Kernel :=
  { kernel_live with
    sys_open := -1
    sys_read := fun _ => { ret := -1, data := [] }
    sys_write := fun _ => -1 }

/-- A kernel that opens descriptor 3 and rejects the control request. -/
def kernel_refused : Kernel :=
  { kernel_live with
    sys_ioctl := fun _ ifr => (-1, ifr)
    sys_read := fun _ => { ret := -1, data := [] }
    sys_write := fun _ => -1 }

/-- A live interface whose every read fails. -/
def kernel_read_error : Kernel :=
  { kernel_live with
    sys_read := fun _ => { ret := -1, data := [] }
    sys_write := fun _ => -1 }

/-- A live interface whose every write fails. -/
def kernel_write_error : Kernel :=
  { kernel_live with sys_write := fun _ => -1 }

/-- A live interface whose every read returns 0. -/
def kernel_eof : Kernel :=
  { kernel_live with
    sys_read := fun _ => { ret := 0, data := [] }
    sys_write := fun _ => 0 }

/-- A live interface that delivers two 3-byte packets and then returns 0 on every
read. -/
def kernel_packets_then_eof : Kernel :=
  { kernel_live with
    sys_read := fun i => if i < 2 then { ret := 3, data := [69, 0, 0] } else { ret := 0, data := [] }
    sys_write := fun i => if i < 2 then 3 else 0 }

/-- The content of `iname` when `main` calls `tun_alloc`: the literal `"tun%d"` with
its NUL, then what the array held before. -/
def main_iname (k : Kernel) : List Byte :=
  tun_template ++ ((List.range 1024).map k.iname_init).drop 6

/-! # Properties -/

/-! ## Strings -/

theorem c_str_cons_zero (cs : List Byte) : c_str (0 :: cs) = [] := by
  simp [c_str]

theorem c_str_cons_ne (c : Byte) (cs : List Byte) (h : c ≠ 0) :
    c_str (c :: cs) = c :: c_str cs := by
  simp [c_str, h]

theorem mem_tail_of_ne {c : Byte} {cs : List Byte} (h : 0 ∈ c :: cs) (hc : c ≠ 0) :
    0 ∈ cs := by
  rcases List.mem_cons.mp h with h0 | h0
  · exact absurd h0.symm hc
  · exact h0

theorem copy_string_eq (src : List Byte) (h : 0 ∈ src) :
    copy_string src = some (c_str src ++ [0]) := by
  induction src with
  | nil => simp at h
  | cons c cs ih =>
    by_cases hc : c = 0
    · subst hc
      simp [copy_string, c_str_cons_zero]
    · simp [copy_string, hc, ih (mem_tail_of_ne h hc), c_str_cons_ne]

theorem c_str_length_lt (src : List Byte) (h : 0 ∈ src) :
    (c_str src).length < src.length := by
  induction src with
  | nil => simp at h
  | cons c cs ih =>
    by_cases hc : c = 0
    · subst hc
      simp [c_str_cons_zero]
    · simpa [c_str_cons_ne _ _ hc] using ih (mem_tail_of_ne h hc)

theorem zero_not_mem_c_str (src : List Byte) : 0 ∉ c_str src := by
  intro h
  have := List.mem_takeWhile_imp h
  simp at this

theorem copy_bounded_eq (n : Nat) (src : List Byte) (h : 0 ∈ src ∨ n ≤ src.length) :
    copy_bounded n src =
      some ((c_str src).take n ++ List.replicate (n - (c_str src).length) 0) := by
  induction n generalizing src with
  | zero => simp [copy_bounded]
  | succ n ih =>
    cases src with
    | nil => simp at h
    | cons c cs =>
      by_cases hc : c = 0
      · subst hc
        simp [copy_bounded, c_str_cons_zero]
      · have h2 : 0 ∈ cs ∨ n ≤ cs.length := by
          rcases h with h | h
          · exact Or.inl (mem_tail_of_ne h hc)
          · exact Or.inr (by simpa using h)
        simp [copy_bounded, hc, ih cs h2, c_str_cons_ne _ _ hc]

theorem store_fits (dst w : List Byte) (h : w.length ≤ dst.length) :
    store dst w = (w ++ dst.drop w.length, []) := by
  simp [store, List.take_of_length_le h, List.drop_eq_nil_of_le h]

theorem store_exact (dst w : List Byte) (h : w.length = dst.length) :
    store dst w = (w, []) := by
  rw [store_fits dst w (le_of_eq h)]
  simp [h]

/-! ## The record built by `tun_alloc` -/

theorem tun_request_eq (dev : List Byte) (h : 0 ∈ dev) :
    tun_request dev = some (request_spec dev) := by
  cases dev with
  | nil => simp at h
  | cons c cs =>
    by_cases hc : c = 0
    · subst hc
      simp [tun_request, request_spec, c_str_cons_zero, ifreq_zero, IFNAMSIZ, IFREQ_SIZE,
        IFF_TUN, IFF_NO_PI]
    · have hlen : ((c_str (c :: cs)).take 16 ++
          List.replicate (16 - (c_str (c :: cs)).length) 0).length
            = (List.replicate 16 (0 : Byte)).length := by
        simp only [List.length_append, List.length_take, List.length_replicate]
        omega
      have hne : c_str (c :: cs) ≠ [] := by simp [c_str_cons_ne _ _ hc]
      have hpad : 16 - ((c_str (c :: cs)).take 16).length = 16 - (c_str (c :: cs)).length := by
        simp only [List.length_take]
        omega
      simp only [tun_request, strncpy, ifreq_zero, IFNAMSIZ, IFREQ_SIZE, IFF_TUN, IFF_NO_PI,
        copy_bounded_eq 16 (c :: cs) (Or.inl h), Option.map_some', store_exact _ _ hlen,
        request_spec, hne, hpad]
      simp [hc]

/-! ## `tun_alloc` -/

theorem tun_alloc_opened (k : Kernel) (dev : List Byte) (hdev : 0 ∈ dev)
    (hfd : 0 ≤ k.sys_open) :
    tun_alloc k dev =
      if (k.sys_ioctl k.sys_open (request_spec dev)).1 < 0 then
        some { ret := (k.sys_ioctl k.sys_open (request_spec dev)).1, dev := dev, overflow := [],
               trace := [Event.open "/dev/net/tun" O_RDWR k.sys_open,
                         Event.ioctl k.sys_open TUNSETIFF (request_spec dev)
                           (k.sys_ioctl k.sys_open (request_spec dev)).1,
                         Event.close k.sys_open,
                         Event.printf "no dice.\n" []] }
      else
        (strcpy dev (k.sys_ioctl k.sys_open (request_spec dev)).2.ifr_name).map (fun p =>
          { ret := k.sys_open, dev := p.1, overflow := p.2,
            trace := [Event.open "/dev/net/tun" O_RDWR k.sys_open,
                      Event.ioctl k.sys_open TUNSETIFF (request_spec dev)
                        (k.sys_ioctl k.sys_open (request_spec dev)).1,
                      Event.printf "got a dev.\n" []] }) := by
  have hnot : ¬ k.sys_open < 0 := not_lt.mpr hfd
  simp only [tun_alloc, hnot, if_false, tun_request_eq dev hdev]
  split
  · rfl
  · cases strcpy dev (k.sys_ioctl k.sys_open (request_spec dev)).2.ifr_name <;> rfl

/-- C2: when `open` on the control device fails, `tun_alloc` returns -1 at once; the
only calls made are the `open` and the diagnostic `printf` (no `ioctl`, no `close`),
and the caller's buffer is unchanged. -/
theorem tun_alloc_open_failure (k : Kernel) (dev : List Byte) (hfd : k.sys_open < 0) :
    tun_alloc k dev =
      some { ret := -1, dev := dev, overflow := [],
             trace := [Event.open "/dev/net/tun" O_RDWR k.sys_open,
                       Event.printf "open failed.\n" []] } := by
  simp [tun_alloc, hfd]

theorem tun_alloc_open_failure_witness :
    kernel_no_device.sys_open < 0 ∧
    tun_alloc kernel_no_device tun_template =
      some { ret := -1, dev := tun_template, overflow := [],
             trace := [Event.open "/dev/net/tun" O_RDWR kernel_no_device.sys_open,
                       Event.printf "open failed.\n" []] } :=
  ⟨by decide, tun_alloc_open_failure kernel_no_device tun_template (by decide)⟩

/-- C3: for every template and every opened descriptor, when the `TUNSETIFF` request
fails `tun_alloc` closes the descriptor exactly once, returns the negative value the
request returned, and leaves the caller's buffer unchanged. -/
theorem tun_alloc_ioctl_failure (k : Kernel) (dev : List Byte) (hdev : 0 ∈ dev)
    (hfd : 0 ≤ k.sys_open) :
    ∃ ifr, tun_request dev = some ifr ∧
      ((k.sys_ioctl k.sys_open ifr).1 < 0 →
        tun_alloc k dev =
          some { ret := (k.sys_ioctl k.sys_open ifr).1, dev := dev, overflow := [],
                 trace := [Event.open "/dev/net/tun" O_RDWR k.sys_open,
                           Event.ioctl k.sys_open TUNSETIFF ifr (k.sys_ioctl k.sys_open ifr).1,
                           Event.close k.sys_open,
                           Event.printf "no dice.\n" []] }) := by
  refine ⟨request_spec dev, tun_request_eq dev hdev, fun herr => ?_⟩
  rw [tun_alloc_opened k dev hdev hfd, if_pos herr]

theorem tun_alloc_ioctl_failure_witness :
    (0 : Byte) ∈ tun_template ∧ 0 ≤ kernel_refused.sys_open ∧
    ∃ ifr, tun_request tun_template = some ifr ∧
      (kernel_refused.sys_ioctl kernel_refused.sys_open ifr).1 < 0 ∧
      tun_alloc kernel_refused tun_template =
        some { ret := -1, dev := tun_template, overflow := [],
               trace := [Event.open "/dev/net/tun" O_RDWR 3,
                         Event.ioctl 3 TUNSETIFF ifr (-1),
                         Event.close 3,
                         Event.printf "no dice.\n" []] } := by
  refine ⟨by decide, by decide, ?_⟩
  obtain ⟨ifr, hreq, h⟩ :=
    tun_alloc_ioctl_failure kernel_refused tun_template (by decide) (by decide)
  have herr : (kernel_refused.sys_ioctl kernel_refused.sys_open ifr).1 < 0 :=
    Int.negSucc_lt_zero 0
  exact ⟨ifr, hreq, herr, h herr⟩

/-- C4: for every template, when the `open` and the `TUNSETIFF` request both succeed
and the kernel left a NUL-terminated name in the name field, `tun_alloc` returns the
descriptor `open` returned, never closes it, and stores at the start of the caller's
buffer the bytes of the name field before its first NUL followed by a NUL; these are
the leading bytes of the buffer on return whenever they fit in it. -/
theorem tun_alloc_success (k : Kernel) (dev : List Byte) (hdev : 0 ∈ dev)
    (hfd : 0 ≤ k.sys_open) :
    ∃ ifr, tun_request dev = some ifr ∧
      (0 ≤ (k.sys_ioctl k.sys_open ifr).1 → 0 ∈ (k.sys_ioctl k.sys_open ifr).2.ifr_name →
        ∃ r, tun_alloc k dev = some r ∧ r.ret = k.sys_open ∧ 0 ≤ r.ret ∧
          r.trace = [Event.open "/dev/net/tun" O_RDWR k.sys_open,
                     Event.ioctl k.sys_open TUNSETIFF ifr (k.sys_ioctl k.sys_open ifr).1,
                     Event.printf "got a dev.\n" []] ∧
          (r.dev, r.overflow) =
            store dev (c_str (k.sys_ioctl k.sys_open ifr).2.ifr_name ++ [0]) ∧
          ((c_str (k.sys_ioctl k.sys_open ifr).2.ifr_name).length + 1 ≤ dev.length →
            r.dev = c_str (k.sys_ioctl k.sys_open ifr).2.ifr_name ++ [0] ++
                      dev.drop ((c_str (k.sys_ioctl k.sys_open ifr).2.ifr_name).length + 1) ∧
            r.overflow = [])) := by
  refine ⟨request_spec dev, tun_request_eq dev hdev, fun herr hnul => ?_⟩
  rw [tun_alloc_opened k dev hdev hfd, if_neg (not_lt.mpr herr)]
  simp only [strcpy, copy_string_eq _ hnul, Option.map_some']
  refine ⟨_, rfl, rfl, hfd, rfl, rfl, fun hfit => ?_⟩
  have hlen : (c_str (k.sys_ioctl k.sys_open (request_spec dev)).2.ifr_name ++ [0]).length
      ≤ dev.length := by simpa using hfit
  rw [store_fits _ _ hlen]
  simp

theorem tun_alloc_success_witness :
    (0 : Byte) ∈ tun_template ∧ 0 ≤ kernel_live.sys_open ∧
    ∃ r, tun_alloc kernel_live tun_template = some r ∧ r.ret = 3 ∧
      r.dev = [116, 117, 110, 48, 0, 0] ∧ r.overflow = [] := by
  refine ⟨by decide, by decide, ?_⟩
  obtain ⟨ifr, hreq, h⟩ := tun_alloc_success kernel_live tun_template (by decide) (by decide)
  obtain ⟨r, hr, hret, -, -, -, hfit⟩ := h (Int.le_refl 0) (by simp [kernel_live, name_tun0])
  have hifr : (kernel_live.sys_ioctl kernel_live.sys_open ifr).2.ifr_name = name_tun0 := rfl
  rw [hifr] at hfit
  obtain ⟨hdev, hov⟩ := hfit (by decide)
  exact ⟨r, hr, hret, by rw [hdev]; decide, hov⟩

theorem tun_alloc_unopened (k : Kernel) (dev : List Byte) (hfd : k.sys_open < 0) :
    tun_alloc k dev =
      some { ret := -1, dev := dev, overflow := [],
             trace := [Event.open "/dev/net/tun" O_RDWR k.sys_open,
                       Event.printf "open failed.\n" []] } := by
  simp [tun_alloc, hfd]

theorem c_str_terminated_length (name : List Byte) (hnul : 0 ∈ name) :
    (c_str name ++ [0]).length ≤ name.length := by
  have := c_str_length_lt name hnul
  simp only [List.length_append, List.length_singleton]
  omega

/-- C5 fails as stated: with a 1-byte caller buffer holding the empty template and the
kernel resolving the name to `tun0`, `tun_alloc` stores 5 bytes, 4 of them past the end
of the buffer. -/
theorem tun_alloc_copy_unbounded :
    ([0] : List Byte).length = 1 ∧
    kernel_live.sys_ioctl 3 (request_spec [0]) =
      (0, { request_spec [0] with ifr_name := name_tun0 }) ∧
    tun_alloc kernel_live [0] =
      some { ret := 3, dev := [116], overflow := [117, 110, 48, 0],
             trace := [Event.open "/dev/net/tun" O_RDWR 3,
                       Event.ioctl 3 TUNSETIFF (request_spec [0]) 0,
                       Event.printf "got a dev.\n" []] } := by
  refine ⟨rfl, rfl, ?_⟩
  decide

/-- C5, amended: on the success path the copy into the caller's buffer is not bounded
by the buffer's capacity.  `tun_alloc` stores the bytes of the name field before its
first NUL and a NUL, whatever the capacity; that is at most `IFNAMSIZ` bytes when the
16-byte field holds a NUL.  The bytes beyond the capacity land past the end of the
buffer, so the buffer is not overflowed exactly when the name and its NUL fit, in
particular whenever the capacity is at least `IFNAMSIZ`. -/
theorem tun_alloc_copy_size (k : Kernel) (dev : List Byte) (hdev : 0 ∈ dev)
    (hfd : 0 ≤ k.sys_open) :
    ∃ ifr, tun_request dev = some ifr ∧
      (0 ≤ (k.sys_ioctl k.sys_open ifr).1 → 0 ∈ (k.sys_ioctl k.sys_open ifr).2.ifr_name →
        (k.sys_ioctl k.sys_open ifr).2.ifr_name.length = IFNAMSIZ →
        ∃ r, tun_alloc k dev = some r ∧
          r.overflow = (c_str (k.sys_ioctl k.sys_open ifr).2.ifr_name ++ [0]).drop dev.length ∧
          (c_str (k.sys_ioctl k.sys_open ifr).2.ifr_name ++ [0]).length ≤ IFNAMSIZ ∧
          (r.overflow = [] ↔
            (c_str (k.sys_ioctl k.sys_open ifr).2.ifr_name ++ [0]).length ≤ dev.length) ∧
          (IFNAMSIZ ≤ dev.length → r.overflow = [])) := by
  refine ⟨request_spec dev, tun_request_eq dev hdev, fun herr hnul hlen => ?_⟩
  rw [tun_alloc_opened k dev hdev hfd, if_neg (not_lt.mpr herr)]
  simp only [strcpy, copy_string_eq _ hnul, Option.map_some']
  have hle := c_str_terminated_length _ hnul
  rw [hlen] at hle
  refine ⟨_, rfl, rfl, hle, ?_, fun hcap => ?_⟩
  · simp only [store, List.drop_eq_nil_iff]
  · simp only [store, List.drop_eq_nil_iff]
    exact le_trans hle hcap

theorem tun_alloc_copy_size_witness :
    (0 : Byte) ∈ tun_template ∧ 0 ≤ kernel_live.sys_open ∧
    ∃ r, tun_alloc kernel_live tun_template = some r ∧
      r.overflow = ([116, 117, 110, 48, 0] : List Byte).drop 6 ∧
      (r.overflow = [] ↔ ([116, 117, 110, 48, 0] : List Byte).length ≤ 6) := by
  refine ⟨by decide, by decide, ?_⟩
  obtain ⟨ifr, -, h⟩ := tun_alloc_copy_size kernel_live tun_template (by decide) (by decide)
  obtain ⟨r, hr, hov, -, hiff, -⟩ := h (Int.le_refl 0) (by simp [kernel_live, name_tun0]) rfl
  exact ⟨r, hr, hov, hiff⟩

/-- C10: for every template the record `tun_alloc` builds, and passes to the `TUNSETIFF`
request on the descriptor it opened, is the specified one: flags exactly
`IFF_TUN | IFF_NO_PI = 0x1001`, every byte after the flags zero, and a 16-byte name
field that is all zero for the empty template and otherwise the template's bytes
before its first NUL, cut to 16 and zero-padded; a template of 16 or more characters
leaves no NUL in the name field.  Once the descriptor is opened, `tun_alloc` issues
the request on that record whatever the kernel answers, and the answer it acts on is
the kernel's answer to that record. -/
theorem tun_alloc_request (k : Kernel) (dev : List Byte) (hdev : 0 ∈ dev) :
    tun_request dev = some (request_spec dev) ∧
    (0 ≤ k.sys_open →
      tun_alloc k dev =
        if (k.sys_ioctl k.sys_open (request_spec dev)).1 < 0 then
          some { ret := (k.sys_ioctl k.sys_open (request_spec dev)).1, dev := dev,
                 overflow := [],
                 trace := [Event.open "/dev/net/tun" O_RDWR k.sys_open,
                           Event.ioctl k.sys_open TUNSETIFF (request_spec dev)
                             (k.sys_ioctl k.sys_open (request_spec dev)).1,
                           Event.close k.sys_open,
                           Event.printf "no dice.\n" []] }
        else
          (strcpy dev (k.sys_ioctl k.sys_open (request_spec dev)).2.ifr_name).map (fun p =>
            { ret := k.sys_open, dev := p.1, overflow := p.2,
              trace := [Event.open "/dev/net/tun" O_RDWR k.sys_open,
                        Event.ioctl k.sys_open TUNSETIFF (request_spec dev)
                          (k.sys_ioctl k.sys_open (request_spec dev)).1,
                        Event.printf "got a dev.\n" []] })) ∧
    (0 ≤ k.sys_open →
      ((k.sys_ioctl k.sys_open (request_spec dev)).1 < 0 ∨
        0 ∈ (k.sys_ioctl k.sys_open (request_spec dev)).2.ifr_name) →
      ∃ r, tun_alloc k dev = some r ∧
        r.trace.take 2 =
          [Event.open "/dev/net/tun" O_RDWR k.sys_open,
           Event.ioctl k.sys_open TUNSETIFF (request_spec dev)
             (k.sys_ioctl k.sys_open (request_spec dev)).1]) ∧
    (0 ≤ k.sys_open → ∀ r, tun_alloc k dev = some r →
      (∃ ret, Event.ioctl k.sys_open TUNSETIFF (request_spec dev) ret ∈ r.trace) ∧
      ∀ fd req arg ret, Event.ioctl fd req arg ret ∈ r.trace → arg = request_spec dev) ∧
    (request_spec dev).ifr_flags = IFF_TUN ||| IFF_NO_PI ∧
    (request_spec dev).ifr_name.length = IFNAMSIZ ∧
    (c_str dev = [] → (request_spec dev).ifr_name = List.replicate IFNAMSIZ 0) ∧
    (IFNAMSIZ ≤ (c_str dev).length → 0 ∉ (request_spec dev).ifr_name) := by
  refine ⟨tun_request_eq dev hdev, tun_alloc_opened k dev hdev, fun hfd hans => ?_,
    fun hfd r hr => ?_, rfl, ?_, ?_, ?_⟩
  · rw [tun_alloc_opened k dev hdev hfd]
    by_cases herr : (k.sys_ioctl k.sys_open (request_spec dev)).1 < 0
    · rw [if_pos herr]
      exact ⟨_, rfl, rfl⟩
    · rw [if_neg herr]
      have hnul : 0 ∈ (k.sys_ioctl k.sys_open (request_spec dev)).2.ifr_name :=
        hans.resolve_left herr
      simp only [strcpy, copy_string_eq _ hnul, Option.map_some']
      exact ⟨_, rfl, rfl⟩
  · rw [tun_alloc_opened k dev hdev hfd] at hr
    split at hr
    · cases hr
      exact ⟨⟨(k.sys_ioctl k.sys_open (request_spec dev)).1, by simp⟩,
        fun fd req arg ret h => by simp at h; exact h.2.2.1⟩
    · cases hs : strcpy dev (k.sys_ioctl k.sys_open (request_spec dev)).2.ifr_name with
      | none => simp [hs] at hr
      | some p =>
        simp only [hs, Option.map_some', Option.some.injEq] at hr
        subst hr
        exact ⟨⟨(k.sys_ioctl k.sys_open (request_spec dev)).1, by simp⟩,
          fun fd req arg ret h => by simp at h; exact h.2.2.1⟩
  · simp only [request_spec, IFNAMSIZ]
    split
    · simp
    · simp only [List.length_append, List.length_take, List.length_replicate]
      omega
  · intro h
    simp [request_spec, h, IFNAMSIZ]
  · intro h hmem
    have hne : c_str dev ≠ [] := by
      intro e
      simp [e, IFNAMSIZ] at h
    have hpad : 16 - ((c_str dev).take 16).length = 0 := by
      simp only [List.length_take, IFNAMSIZ] at *
      omega
    simp only [request_spec, hne, if_false, hpad, List.replicate_zero, List.append_nil] at hmem
    exact zero_not_mem_c_str dev (List.mem_of_mem_take hmem)

theorem tun_alloc_request_witness :
    (0 : Byte) ∈ tun_template ∧
    tun_request tun_template =
      some { ifr_name := [116, 117, 110, 37, 100, 0, 0, 0, 0, 0, 0, 0, 0, 0, 0, 0]
             ifr_flags := 0x1001
             ifr_rest := List.replicate 22 0 } ∧
    ∃ r, tun_alloc kernel_live tun_template = some r ∧
      r.trace.take 2 =
        [Event.open "/dev/net/tun" O_RDWR 3,
         Event.ioctl 3 TUNSETIFF
           { ifr_name := [116, 117, 110, 37, 100, 0, 0, 0, 0, 0, 0, 0, 0, 0, 0, 0]
             ifr_flags := 0x1001
             ifr_rest := List.replicate 22 0 } 0] := by
  have hspec : request_spec tun_template =
      { ifr_name := [116, 117, 110, 37, 100, 0, 0, 0, 0, 0, 0, 0, 0, 0, 0, 0]
        ifr_flags := 0x1001
        ifr_rest := List.replicate 22 0 } := by decide
  have h := tun_alloc_request kernel_live tun_template (by decide)
  obtain ⟨r, hr, htrace⟩ := h.2.2.1 (by decide) (Or.inr (by simp [kernel_live, name_tun0]))
  refine ⟨by decide, ?_, r, hr, ?_⟩
  · rw [h.1, hspec]
  · rw [htrace, hspec]
    rfl

/-! ## `main` -/

theorem zero_mem_main_iname (k : Kernel) : 0 ∈ main_iname k := by
  simp [main_iname, tun_template]

theorem main_iname_length (k : Kernel) : (main_iname k).length = 1024 := by
  simp [main_iname, tun_template]

theorem strcpy_iname (k : Kernel) :
    strcpy ((List.range 1024).map k.iname_init) tun_template = some (main_iname k, []) := by
  have h : copy_string tun_template = some tun_template := by decide
  have hlen : tun_template.length ≤ ((List.range 1024).map k.iname_init).length := by
    simp [tun_template]
  simp only [strcpy, h, Option.map_some', store_fits _ _ hlen, main_iname]
  rfl

theorem main_init_eq (k : Kernel) :
    main_init k =
      match tun_alloc k (main_iname k) with
      | none => none
      | some r =>
        if r.overflow ≠ [] then none
        else
          some { fd := r.ret, iname := r.dev,
                 buff := (List.range 8192).map k.buff_init,
                 iter := 0,
                 trace := r.trace ++
                   [Event.printf "%s %d\n" [PrintfArg.str (c_str r.dev), PrintfArg.int r.ret]] } := by
  simp only [main_init, strcpy_iname]
  simp

theorem main_init_alloc (k : Kernel) (s0 : MainState) (h : main_init k = some s0) :
    ∃ r, tun_alloc k (main_iname k) = some r ∧ r.overflow = [] ∧ s0.fd = r.ret ∧
      s0.iter = 0 ∧
      s0.trace = r.trace ++
        [Event.printf "%s %d\n" [PrintfArg.str (c_str r.dev), PrintfArg.int r.ret]] := by
  rw [main_init_eq] at h
  cases hr : tun_alloc k (main_iname k) with
  | none => simp [hr] at h
  | some r =>
    simp only [hr] at h
    by_cases hov : r.overflow = []
    · simp only [hov, ne_eq, not_true_eq_false, if_false, Option.some.injEq] at h
      subst h
      exact ⟨r, rfl, hov, rfl, rfl, rfl⟩
    · simp [hov] at h

theorem c_while_always {σ : Type} (cond : σ → Bool) (body : σ → σ)
    (hc : ∀ st, cond st = true) (n : Nat) (st : σ) :
    c_while cond body n st = (body^[n] st, false) := by
  induction n generalizing st with
  | zero => rfl
  | succ n ih =>
    rw [c_while, if_pos (hc st), ih, Function.iterate_succ, Function.comp_apply]

theorem main_run (k : Kernel) (s0 : MainState) (h : main_init k = some s0) (n : Nat) :
    main k n = some ((loop_body k)^[n] s0, none) := by
  unfold main
  rw [h, Option.map_some', c_while_always _ _ (fun _ => by decide)]
  rfl

theorem iterate_fd (k : Kernel) (s0 : MainState) (n : Nat) :
    ((loop_body k)^[n] s0).fd = s0.fd := by
  induction n with
  | zero => rfl
  | succ n ih => rw [Function.iterate_succ_apply']; exact ih

theorem iterate_iter (k : Kernel) (s0 : MainState) (n : Nat) :
    ((loop_body k)^[n] s0).iter = s0.iter + n := by
  induction n with
  | zero => rfl
  | succ n ih =>
    rw [Function.iterate_succ_apply']
    show ((loop_body k)^[n] s0).iter + 1 = s0.iter + (n + 1)
    omega

theorem iterate_buff_length (k : Kernel) (s0 : MainState) (h : s0.buff.length = 8192)
    (n : Nat) : ((loop_body k)^[n] s0).buff.length = 8192 := by
  induction n with
  | zero => exact h
  | succ n ih =>
    rw [Function.iterate_succ_apply']
    show (store ((loop_body k)^[n] s0).buff
      ((k.sys_read ((loop_body k)^[n] s0).iter).data.take 8192)).1.length = 8192
    simp only [store, List.length_append, List.length_take, List.length_drop, ih]
    omega

theorem main_init_shape (k : Kernel) (s0 : MainState) (h : main_init k = some s0) :
    s0.iter = 0 ∧ s0.buff.length = 8192 := by
  rw [main_init_eq] at h
  cases hr : tun_alloc k (main_iname k) with
  | none => simp [hr] at h
  | some r =>
    simp only [hr] at h
    by_cases hov : r.overflow = []
    · simp only [hov, ne_eq, not_true_eq_false, if_false, Option.some.injEq] at h
      subst h
      simp
    · simp [hov] at h

/-- The calls of pass `n` of the loop, started in state `st` on descriptor `fd`. -/
theorem loop_body_trace (k : Kernel) (st : MainState) :
    (loop_body k st).trace = st.trace ++
      [Event.read st.fd 8192 (k.sys_read st.iter).ret,
       Event.printf "read %d\n" [PrintfArg.int (k.sys_read st.iter).ret],
       Event.write st.fd
         ((store st.buff ((k.sys_read st.iter).data.take 8192)).1.take
           (to_size_t (k.sys_read st.iter).ret))
         (to_size_t (k.sys_read st.iter).ret) (k.sys_write st.iter)] := rfl

theorem main_pass (k : Kernel) (s0 : MainState) (h : main_init k = some s0) (n : Nat) :
    ∃ st st', main k n = some (st, none) ∧ main k (n + 1) = some (st', none) ∧
      st.fd = s0.fd ∧ st.iter = n ∧ st.buff.length = 8192 ∧ st' = loop_body k st := by
  refine ⟨_, _, main_run k s0 h n, main_run k s0 h (n + 1), iterate_fd k s0 n, ?_,
    iterate_buff_length k s0 (main_init_shape k s0 h).2 n, Function.iterate_succ_apply' _ _ _⟩
  rw [iterate_iter, (main_init_shape k s0 h).1]
  omega

theorem to_size_t_small (m : Nat) (h : m ≤ 8192) : to_size_t (m : Int) = m := by
  have h1 : ((m : Int) % 2 ^ 64) = (m : Int) := Int.emod_eq_of_lt (by omega) (by omega)
  rw [to_size_t, h1, Int.toNat_ofNat]

theorem to_size_t_negative (s : Int) (hneg : s < 0) (hmin : -(2 ^ 63) ≤ s) :
    (to_size_t s : Int) = 2 ^ 64 + s := by
  have h1 : s % 2 ^ 64 = 2 ^ 64 + s := by omega
  rw [to_size_t, h1, Int.toNat_of_nonneg (by omega)]

theorem alloc_failure_no_overflow (k : Kernel) (dev : List Byte) (r : AllocResult)
    (hdev : 0 ∈ dev) (h : tun_alloc k dev = some r) (hneg : r.ret < 0) :
    r.overflow = [] := by
  by_cases hfd : k.sys_open < 0
  · rw [tun_alloc_unopened k dev hfd] at h
    cases h
    rfl
  · rw [tun_alloc_opened k dev hdev (not_lt.mp hfd)] at h
    split at h
    · cases h
      rfl
    · cases hs : strcpy dev (k.sys_ioctl k.sys_open (request_spec dev)).2.ifr_name with
      | none => simp [hs] at h
      | some p =>
        simp only [hs, Option.map_some', Option.some.injEq] at h
        subst h
        exact absurd hneg hfd

theorem main_init_of_alloc (k : Kernel) (r : AllocResult)
    (h : tun_alloc k (main_iname k) = some r) (hov : r.overflow = []) :
    ∃ s0, main_init k = some s0 ∧ s0.fd = r.ret := by
  rw [main_init_eq, h]
  simp [hov]

theorem tun_alloc_refused :
    ∃ ifr, tun_request (main_iname kernel_refused) = some ifr ∧
      tun_alloc kernel_refused (main_iname kernel_refused) =
        some { ret := -1, dev := main_iname kernel_refused, overflow := [],
               trace := [Event.open "/dev/net/tun" O_RDWR 3,
                         Event.ioctl 3 TUNSETIFF ifr (-1),
                         Event.close 3,
                         Event.printf "no dice.\n" []] } := by
  refine ⟨_, tun_request_eq _ (zero_mem_main_iname kernel_refused), ?_⟩
  rw [tun_alloc_opened kernel_refused _ (zero_mem_main_iname kernel_refused) (by decide)]
  rfl

/-- C1: in every pass of the echo loop in which `read` returns a count `n` with
`0 < n <= 8192` and the `n` bytes `p`, the calls of that pass are exactly one `read`
requesting 8192 bytes, the diagnostic `printf`, and one `write` of exactly `p`, of
length `n`, on the same descriptor, which is the value `tun_alloc` returned. -/
theorem echo_roundtrip (k : Kernel) (s0 : MainState) (hinit : main_init k = some s0)
    (n : Nat) (p : List Byte) (hread : k.sys_read n = { ret := p.length, data := p })
    (hpos : 0 < p.length) (hcap : p.length ≤ 8192) :
    (∃ r, strcpy ((List.range 1024).map k.iname_init) tun_template = some (main_iname k, []) ∧
      tun_alloc k (main_iname k) = some r ∧ s0.fd = r.ret) ∧
    ∃ st st', main k n = some (st, none) ∧ main k (n + 1) = some (st', none) ∧
      st'.trace = st.trace ++
        [Event.read s0.fd 8192 p.length,
         Event.printf "read %d\n" [PrintfArg.int p.length],
         Event.write s0.fd p p.length (k.sys_write n)] := by
  have _ := hpos
  obtain ⟨r, hr, -, hfd, -, -⟩ := main_init_alloc k s0 hinit
  refine ⟨⟨r, strcpy_iname k, hr, hfd⟩, ?_⟩
  obtain ⟨st, st', h1, h2, hstfd, hiter, hlen, hst'⟩ := main_pass k s0 hinit n
  refine ⟨st, st', h1, h2, ?_⟩
  have hfit : p.length ≤ st.buff.length := by omega
  rw [hst', loop_body_trace, hiter, hread, hstfd]
  simp only [to_size_t_small _ hcap, List.take_of_length_le hcap, store_fits _ _ hfit,
    List.take_left']

theorem echo_roundtrip_witness :
    ∃ s0, main_init kernel_live = some s0 ∧
      kernel_live.sys_read 0 = { ret := 3, data := [69, 0, 0] } ∧
      ∃ st st', main kernel_live 0 = some (st, none) ∧ main kernel_live 1 = some (st', none) ∧
        st'.trace = st.trace ++
          [Event.read s0.fd 8192 3,
           Event.printf "read %d\n" [PrintfArg.int 3],
           Event.write s0.fd [69, 0, 0] 3 3] := by
  obtain ⟨s0, h0⟩ := Option.isSome_iff_exists.mp
    (by set_option maxRecDepth 1000000 in decide : (main_init kernel_live).isSome = true)
  exact ⟨s0, h0, rfl,
    (echo_roundtrip kernel_live s0 h0 0 [69, 0, 0] rfl (by decide) (by decide)).2⟩

/-- C6 fails as stated: when the control device cannot be opened `tun_alloc` returns
-1, and `main` goes on into the loop: its first pass issues a `read` and a `write` on
descriptor -1, and `main` has not returned. -/
theorem main_enters_loop_without_device :
    (tun_alloc kernel_no_device (main_iname kernel_no_device)).map (fun r => r.ret) = some (-1) ∧
    (main kernel_no_device 1).map (fun r => (r.1.fd, io_calls r.1.trace, r.2)) =
      some (-1,
        [{ is_write := false, fd := -1, count := 8192, ret := -1 },
         { is_write := true, fd := -1, count := 18446744073709551615, ret := -1 }],
        none) := by
  set_option maxRecDepth 1000000 in decide

theorem alloc_failure_dev (k : Kernel) (dev : List Byte) (r : AllocResult)
    (hdev : 0 ∈ dev) (h : tun_alloc k dev = some r) (hneg : r.ret < 0) :
    r.dev = dev := by
  by_cases hfd : k.sys_open < 0
  · rw [tun_alloc_unopened k dev hfd] at h
    cases h
    rfl
  · rw [tun_alloc_opened k dev hdev (not_lt.mp hfd)] at h
    split at h
    · cases h
      rfl
    · cases hs : strcpy dev (k.sys_ioctl k.sys_open (request_spec dev)).2.ifr_name with
      | none => simp [hs] at h
      | some p =>
        simp only [hs, Option.map_some', Option.some.injEq] at h
        subst h
        exact absurd hneg hfd

theorem c_str_main_iname (k : Kernel) : c_str (main_iname k) = [116, 117, 110, 37, 100] := by
  simp [main_iname, tun_template, c_str, List.takeWhile]

theorem iterate_trace (k : Kernel) (s0 : MainState) (n : Nat) :
    ∃ done, ((loop_body k)^[n] s0).trace = s0.trace ++ done := by
  induction n with
  | zero => exact ⟨[], by simp⟩
  | succ n ih =>
    obtain ⟨done, hd⟩ := ih
    rw [Function.iterate_succ_apply', loop_body_trace, hd, List.append_assoc]
    exact ⟨_, rfl⟩

/-- C6, amended: a failure of `tun_alloc` at startup is not checked.  When `tun_alloc`
returns a negative value, the name buffer still holds `tun%d`; `main` prints that name
and the negative value, keeps the value as its descriptor and enters the echo loop:
every pass issues its `read` and its `write` on that negative value, after the startup
output, and `main` does not return. -/
theorem main_ignores_alloc_failure (k : Kernel) (r : AllocResult)
    (halloc : tun_alloc k (main_iname k) = some r) (hneg : r.ret < 0) (n : Nat) :
    r.dev = main_iname k ∧
    ∃ s0 st st', main_init k = some s0 ∧ s0.fd = r.ret ∧
      s0.trace = r.trace ++
        [Event.printf "%s %d\n"
          [PrintfArg.str [116, 117, 110, 37, 100], PrintfArg.int r.ret]] ∧
      main k 0 = some (s0, none) ∧
      main k n = some (st, none) ∧ main k (n + 1) = some (st', none) ∧
      (∃ done, st.trace = s0.trace ++ done) ∧
      st'.trace = st.trace ++
        [Event.read r.ret 8192 (k.sys_read n).ret,
         Event.printf "read %d\n" [PrintfArg.int (k.sys_read n).ret],
         Event.write r.ret
           ((store st.buff ((k.sys_read n).data.take 8192)).1.take
             (to_size_t (k.sys_read n).ret))
           (to_size_t (k.sys_read n).ret) (k.sys_write n)] := by
  have hov := alloc_failure_no_overflow k _ r (zero_mem_main_iname k) halloc hneg
  have hdev := alloc_failure_dev k _ r (zero_mem_main_iname k) halloc hneg
  obtain ⟨s0, hinit, hfd⟩ := main_init_of_alloc k r halloc hov
  obtain ⟨r1, hr1, -, -, -, htrace⟩ := main_init_alloc k s0 hinit
  have hsame : r1 = r := by
    rw [halloc] at hr1
    cases hr1
    rfl
  subst hsame
  obtain ⟨st, st', h1, h2, hstfd, hiter, -, hst'⟩ := main_pass k s0 hinit n
  have hst : st = (loop_body k)^[n] s0 := by
    rw [main_run k s0 hinit n] at h1
    cases h1
    rfl
  refine ⟨hdev, s0, st, st', hinit, hfd, ?_, main_run k s0 hinit 0, h1, h2, ?_, ?_⟩
  · rw [htrace, hdev, c_str_main_iname]
  · rw [hst]
    exact iterate_trace k s0 n
  · rw [hst', loop_body_trace, hiter, hstfd, hfd]

theorem main_ignores_alloc_failure_witness :
    ∃ r, tun_alloc kernel_refused (main_iname kernel_refused) = some r ∧ r.ret < 0 ∧
      r.dev = main_iname kernel_refused ∧
      ∃ s0 st st', main_init kernel_refused = some s0 ∧ s0.fd = r.ret ∧
        s0.trace = r.trace ++
          [Event.printf "%s %d\n"
            [PrintfArg.str [116, 117, 110, 37, 100], PrintfArg.int r.ret]] ∧
        main kernel_refused 0 = some (s0, none) ∧
        main kernel_refused 0 = some (st, none) ∧ main kernel_refused 1 = some (st', none) ∧
        (∃ done, st.trace = s0.trace ++ done) ∧
        st'.trace = st.trace ++
          [Event.read r.ret 8192 (kernel_refused.sys_read 0).ret,
           Event.printf "read %d\n" [PrintfArg.int (kernel_refused.sys_read 0).ret],
           Event.write r.ret
             ((store st.buff ((kernel_refused.sys_read 0).data.take 8192)).1.take
               (to_size_t (kernel_refused.sys_read 0).ret))
             (to_size_t (kernel_refused.sys_read 0).ret) (kernel_refused.sys_write 0)] := by
  obtain ⟨ifr, -, h⟩ := tun_alloc_refused
  have hw := main_ignores_alloc_failure kernel_refused _ h (Int.negSucc_lt_zero 0) 0
  exact ⟨_, h, Int.negSucc_lt_zero 0, hw.1, hw.2⟩

theorem main_two_passes (k : Kernel) (s0 : MainState) (h : main_init k = some s0) (n : Nat) :
    ∃ st st' st'', main k n = some (st, none) ∧ main k (n + 1) = some (st', none) ∧
      main k (n + 2) = some (st'', none) ∧
      st'.trace = st.trace ++
        [Event.read s0.fd 8192 (k.sys_read n).ret,
         Event.printf "read %d\n" [PrintfArg.int (k.sys_read n).ret],
         Event.write s0.fd
           ((store st.buff ((k.sys_read n).data.take 8192)).1.take
             (to_size_t (k.sys_read n).ret))
           (to_size_t (k.sys_read n).ret) (k.sys_write n)] ∧
      ∃ tl, st''.trace = st'.trace ++ Event.read s0.fd 8192 (k.sys_read (n + 1)).ret :: tl := by
  obtain ⟨st, st', h1, h2, hfd, hiter, -, hst'⟩ := main_pass k s0 h n
  obtain ⟨st1, st'', h3, h4, hfd1, hiter1, -, hst''⟩ := main_pass k s0 h (n + 1)
  have hsame : st1 = st' := by
    rw [h2] at h3
    cases h3
    rfl
  subst hsame
  refine ⟨st, st1, st'', h1, h2, h4, ?_, ?_⟩
  · rw [hst', loop_body_trace, hiter, hfd]
  · rw [hst'', loop_body_trace, hiter1, hfd1]
    exact ⟨_, rfl⟩

/-- C7 fails as stated: on a live interface whose reads fail with -1, the pass in which
`read` returned -1 still issues a `write`, of length `(size_t)-1 = 2^64 - 1`, and the
next pass issues a further `read`; `main` has not returned. -/
theorem read_error_followed_by_write_and_read :
    (kernel_read_error.sys_read 0).ret = -1 ∧
    (main kernel_read_error 2).map (fun r => (io_calls r.1.trace, r.2)) =
      some (
        [{ is_write := false, fd := 3, count := 8192, ret := -1 },
         { is_write := true, fd := 3, count := 18446744073709551615, ret := -1 },
         { is_write := false, fd := 3, count := 8192, ret := -1 },
         { is_write := true, fd := 3, count := 18446744073709551615, ret := -1 }],
        none) := by
  set_option maxRecDepth 1000000 in decide

/-- C7, amended: in the echo loop a `read` that returns a negative result is not
checked.  The pass still issues exactly one `write` on the same descriptor, its length
the negative count converted to `size_t` (the count plus `2^64`), and the next pass
issues a further `read` on the same descriptor; `main` does not return. -/
theorem read_error_not_fatal (k : Kernel) (s0 : MainState) (hinit : main_init k = some s0)
    (n : Nat) (herr : (k.sys_read n).ret < 0) :
    ∃ st st' st'', main k n = some (st, none) ∧ main k (n + 1) = some (st', none) ∧
      main k (n + 2) = some (st'', none) ∧
      st'.trace = st.trace ++
        [Event.read s0.fd 8192 (k.sys_read n).ret,
         Event.printf "read %d\n" [PrintfArg.int (k.sys_read n).ret],
         Event.write s0.fd
           ((store st.buff ((k.sys_read n).data.take 8192)).1.take
             (to_size_t (k.sys_read n).ret))
           (to_size_t (k.sys_read n).ret) (k.sys_write n)] ∧
      (∃ tl, st''.trace = st'.trace ++ Event.read s0.fd 8192 (k.sys_read (n + 1)).ret :: tl) ∧
      (-(2 ^ 63) ≤ (k.sys_read n).ret →
        (to_size_t (k.sys_read n).ret : Int) = 2 ^ 64 + (k.sys_read n).ret) := by
  obtain ⟨st, st', st'', h1, h2, h3, ht, hnext⟩ := main_two_passes k s0 hinit n
  exact ⟨st, st', st'', h1, h2, h3, ht, hnext, to_size_t_negative _ herr⟩

theorem read_error_not_fatal_witness :
    ∃ s0, main_init kernel_read_error = some s0 ∧ (kernel_read_error.sys_read 0).ret < 0 ∧
      ∃ st st' st'', main kernel_read_error 0 = some (st, none) ∧
        main kernel_read_error 1 = some (st', none) ∧
        main kernel_read_error 2 = some (st'', none) ∧
        st'.trace = st.trace ++
          [Event.read s0.fd 8192 (-1),
           Event.printf "read %d\n" [PrintfArg.int (-1)],
           Event.write s0.fd
             ((store st.buff ((kernel_read_error.sys_read 0).data.take 8192)).1.take
               (to_size_t (-1)))
             (to_size_t (-1)) (-1)] ∧
        (∃ tl, st''.trace = st'.trace ++ Event.read s0.fd 8192 (-1) :: tl) ∧
        (-(2 ^ 63) ≤ (-1 : Int) → (to_size_t (-1) : Int) = 2 ^ 64 + -1) := by
  obtain ⟨s0, h0⟩ := Option.isSome_iff_exists.mp
    (by set_option maxRecDepth 1000000 in decide :
      (main_init kernel_read_error).isSome = true)
  exact ⟨s0, h0, Int.negSucc_lt_zero 0,
    read_error_not_fatal kernel_read_error s0 h0 0 (Int.negSucc_lt_zero 0)⟩

/-- C8 fails as stated: on a live interface whose writes fail with -1, the pass after
the failed `write` issues a further `read` on the same descriptor, and `main` has not
returned. -/
theorem write_error_followed_by_read :
    kernel_write_error.sys_write 0 = -1 ∧
    (main kernel_write_error 2).map (fun r => (io_calls r.1.trace, r.2)) =
      some (
        [{ is_write := false, fd := 3, count := 8192, ret := 3 },
         { is_write := true, fd := 3, count := 3, ret := -1 },
         { is_write := false, fd := 3, count := 8192, ret := 3 },
         { is_write := true, fd := 3, count := 3, ret := -1 }],
        none) := by
  set_option maxRecDepth 1000000 in decide

/-- C8, amended: in the echo loop the result of `write` is discarded.  After a `write`
that returns a negative result the loop does not terminate: the next pass issues a
further `read` on the same descriptor, and `main` does not return. -/
theorem write_error_ignored (k : Kernel) (s0 : MainState) (hinit : main_init k = some s0)
    (n : Nat) (herr : k.sys_write n < 0) :
    ∃ st st' st'', main k n = some (st, none) ∧ main k (n + 1) = some (st', none) ∧
      main k (n + 2) = some (st'', none) ∧
      (∃ payload count w, w < 0 ∧ st'.trace = st.trace ++
        [Event.read s0.fd 8192 (k.sys_read n).ret,
         Event.printf "read %d\n" [PrintfArg.int (k.sys_read n).ret],
         Event.write s0.fd payload count w]) ∧
      ∃ tl, st''.trace = st'.trace ++ Event.read s0.fd 8192 (k.sys_read (n + 1)).ret :: tl := by
  obtain ⟨st, st', st'', h1, h2, h3, ht, hnext⟩ := main_two_passes k s0 hinit n
  exact ⟨st, st', st'', h1, h2, h3, ⟨_, _, _, herr, ht⟩, hnext⟩

theorem write_error_ignored_witness :
    ∃ s0, main_init kernel_write_error = some s0 ∧ kernel_write_error.sys_write 0 < 0 ∧
      ∃ st st' st'', main kernel_write_error 0 = some (st, none) ∧
        main kernel_write_error 1 = some (st', none) ∧
        main kernel_write_error 2 = some (st'', none) ∧
        (∃ payload count w, w < 0 ∧ st'.trace = st.trace ++
          [Event.read s0.fd 8192 (kernel_write_error.sys_read 0).ret,
           Event.printf "read %d\n" [PrintfArg.int (kernel_write_error.sys_read 0).ret],
           Event.write s0.fd payload count w]) ∧
        ∃ tl, st''.trace = st'.trace ++
          Event.read s0.fd 8192 (kernel_write_error.sys_read 1).ret :: tl := by
  obtain ⟨s0, h0⟩ := Option.isSome_iff_exists.mp
    (by set_option maxRecDepth 1000000 in decide :
      (main_init kernel_write_error).isSome = true)
  exact ⟨s0, h0, Int.negSucc_lt_zero 0,
    write_error_ignored kernel_write_error s0 h0 0 (Int.negSucc_lt_zero 0)⟩

/-- C9 fails as stated: on a live interface whose every read returns 0 the loop keeps
iterating for ever.  For every number of passes `n`, `main` completes the `n` passes
without returning; its first three passes are three reads returning 0, each followed
by a zero-length write. -/
theorem zero_reads_spin_forever :
    (∀ i, (kernel_eof.sys_read i).ret = 0) ∧
    (∀ n, ∃ st, main kernel_eof n = some (st, none) ∧ st.iter = n) ∧
    (main kernel_eof 3).map (fun r => (io_calls r.1.trace, r.2)) =
      some (
        [{ is_write := false, fd := 3, count := 8192, ret := 0 },
         { is_write := true, fd := 3, count := 0, ret := 0 },
         { is_write := false, fd := 3, count := 8192, ret := 0 },
         { is_write := true, fd := 3, count := 0, ret := 0 },
         { is_write := false, fd := 3, count := 8192, ret := 0 },
         { is_write := true, fd := 3, count := 0, ret := 0 }],
        none) := by
  refine ⟨fun _ => rfl, fun n => ?_, by set_option maxRecDepth 1000000 in decide⟩
  obtain ⟨s0, h0⟩ := Option.isSome_iff_exists.mp
    (by set_option maxRecDepth 1000000 in decide : (main_init kernel_eof).isSome = true)
  obtain ⟨st, -, h1, -, -, hiter, -, -⟩ := main_pass kernel_eof s0 h0 n
  exact ⟨st, h1, hiter⟩

/-- C9, amended: in the echo loop a `read` that returns 0 is not treated as a special
condition.  The pass in which any `read` returns 0 issues a zero-length `write` on the
same descriptor, and the next pass issues a further `read` on it; `main` never
returns, whatever the reads return.  In particular, when every read returns 0 the
loop iterates for ever, every pass being one `read` returning 0 and one zero-length
`write`. -/
theorem zero_read_not_handled (k : Kernel) (s0 : MainState) (hinit : main_init k = some s0)
    (n : Nat) (hzero : (k.sys_read n).ret = 0) :
    (∃ st st' st'', main k n = some (st, none) ∧ main k (n + 1) = some (st', none) ∧
      main k (n + 2) = some (st'', none) ∧
      st.iter = n ∧ st'.iter = n + 1 ∧ st''.iter = n + 2 ∧
      st'.trace = st.trace ++
        [Event.read s0.fd 8192 0,
         Event.printf "read %d\n" [PrintfArg.int 0],
         Event.write s0.fd [] 0 (k.sys_write n)] ∧
      ∃ tl, st''.trace = st'.trace ++ Event.read s0.fd 8192 (k.sys_read (n + 1)).ret :: tl) ∧
    (∀ m, ∃ st, main k m = some (st, none) ∧ st.iter = m) ∧
    ((∀ i, (k.sys_read i).ret = 0) →
      ∀ m, ∃ st st', main k m = some (st, none) ∧ main k (m + 1) = some (st', none) ∧
        st'.trace = st.trace ++
          [Event.read s0.fd 8192 0,
           Event.printf "read %d\n" [PrintfArg.int 0],
           Event.write s0.fd [] 0 (k.sys_write m)]) := by
  refine ⟨?_, fun m => ?_, fun hall m => ?_⟩
  · obtain ⟨st, st', st'', h1, h2, h3, ht, hnext⟩ := main_two_passes k s0 hinit n
    obtain ⟨a, -, ha, -, -, hia, -, -⟩ := main_pass k s0 hinit n
    obtain ⟨b, -, hb, -, -, hib, -, -⟩ := main_pass k s0 hinit (n + 1)
    obtain ⟨c, -, hc, -, -, hic, -, -⟩ := main_pass k s0 hinit (n + 2)
    have hsa : a = st := by
      rw [h1] at ha
      cases ha
      rfl
    have hsb : b = st' := by
      rw [h2] at hb
      cases hb
      rfl
    have hsc : c = st'' := by
      rw [h3] at hc
      cases hc
      rfl
    subst hsa hsb hsc
    refine ⟨a, b, c, h1, h2, h3, hia, hib, hic, ?_, hnext⟩
    rw [ht, hzero]
    rfl
  · obtain ⟨st, -, h1, -, -, hiter, -, -⟩ := main_pass k s0 hinit m
    exact ⟨st, h1, hiter⟩
  · obtain ⟨st, st', h1, h2, hfd, hiter, -, hst'⟩ := main_pass k s0 hinit m
    refine ⟨st, st', h1, h2, ?_⟩
    rw [hst', loop_body_trace, hiter, hfd, hall m]
    rfl

theorem zero_read_not_handled_witness :
    ∃ s0, main_init kernel_packets_then_eof = some s0 ∧
      (kernel_packets_then_eof.sys_read 1).ret = 3 ∧
      (kernel_packets_then_eof.sys_read 2).ret = 0 ∧
      ∃ st st' st'', main kernel_packets_then_eof 2 = some (st, none) ∧
        main kernel_packets_then_eof 3 = some (st', none) ∧
        main kernel_packets_then_eof 4 = some (st'', none) ∧
        st.iter = 2 ∧ st'.iter = 3 ∧ st''.iter = 4 ∧
        st'.trace = st.trace ++
          [Event.read s0.fd 8192 0,
           Event.printf "read %d\n" [PrintfArg.int 0],
           Event.write s0.fd [] 0 (kernel_packets_then_eof.sys_write 2)] ∧
        ∃ tl, st''.trace = st'.trace ++
          Event.read s0.fd 8192 (kernel_packets_then_eof.sys_read 3).ret :: tl := by
  obtain ⟨s0, h0⟩ := Option.isSome_iff_exists.mp
    (by set_option maxRecDepth 1000000 in decide :
      (main_init kernel_packets_then_eof).isSome = true)
  exact ⟨s0, h0, rfl, rfl, (zero_read_not_handled kernel_packets_then_eof s0 h0 2 rfl).1⟩

end Brdpoc
